import Mathlib

/-! # proglog: agent, authorizer and HTTP transport

A shallow embedding of the Go sources

* `internal/agent/agent.go`   (`Config.RPCAddr`, `New`, the `setup*` steps, `Agent.Shutdown`),
* `internal/auth/authorizer.go` (`Authorizer.Authorize`),
* `internal/server/http.go`   (`handleProduce`, `handleConsume`),

followed by the theorems that settle the specification's claims about them.

Conventions.  A Go `error` is an `Option` (`none` is `nil`).  Calls into
collaborators that live outside these files (the membership, the replicator,
the gRPC server, the commit log, the JSON codec, the policy enforcer) are
parameters of the model: each is a function on an abstract state, so a theorem
that quantifies over them holds for every behaviour they can have.  Every
operation records the externally visible calls it makes in a trace.
-/

namespace Proglog

/-! ## Errors -/

/-- Modelled from the spec: the error kinds of section 7.  The error values of
the log packages are declared outside the files embedded here. -/
inductive ErrKind where
  | NotFound
  | IOFailure
  | CapacityExceeded
  | PermissionDenied
  | StreamTerminated
  | Other
  deriving DecidableEq, Repr

/-- A Go `error` value: its kind and the text `err.Error()` returns. -/
structure GoError where
  kind : ErrKind
  msg : String
  deriving DecidableEq, Repr

namespace Agent

/-! ## `Agent.Shutdown` (agent.go, lines 157-182) -/

/-- The four entries of the `shutdown` slice, in source order. -/
inductive Step where
  | membershipLeave
  | replicatorClose
  | serverGracefulStop
  | logClose
  deriving DecidableEq, Repr

/-- What a call of `Shutdown` does that is visible from outside. -/
inductive Event where
  | closeShutdowns
  | call (s : Step)
  deriving DecidableEq, Repr

/-- The collaborators an agent shuts down, as functions on the state `W` of
the world outside the agent.  `GracefulStop` returns nothing. -/
structure Subsystems (W : Type) where
  membershipLeave : W → W × Option GoError
  replicatorClose : W → W × Option GoError
  serverGracefulStop : W → W
  logClose : W → W × Option GoError

/-- The fields of `Agent` that `Shutdown` reads or writes: the `shutdown` flag,
whether the `shutdowns` channel has been closed, and the collaborators' state. -/
structure State (W : Type) where
  shutdown : Bool
  shutdownsClosed : Bool
  world : W

/-- The result of one call: the agent afterwards, the returned error, and the
calls made, in order. -/
structure Outcome (W : Type) where
  agent : State W
  err : Option GoError
  trace : List Event

/-- The element of the `shutdown` slice for a step; the third one wraps
`GracefulStop` and returns `nil`. -/
def runStep {W : Type} (sys : Subsystems W) : Step → W → W × Option GoError
  | .membershipLeave, w => sys.membershipLeave w
  | .replicatorClose, w => sys.replicatorClose w
  | .serverGracefulStop, w => (sys.serverGracefulStop w, none)
  | .logClose, w => sys.logClose w

/-- The slice literal of lines 167-175. -/
def shutdownSteps : List Step :=
  [.membershipLeave, .replicatorClose, .serverGracefulStop, .logClose]

/-- The loop of lines 176-181: call each function in turn and return the first
non-nil error at once. -/
def runLoop {W : Type} (sys : Subsystems W) : List Step → W → W × Option GoError × List Event
  | [], w => (w, none, [])
  | s :: rest, w =>
    match runStep sys s w with
    | (w1, some e) => (w1, some e, [Event.call s])
    | (w1, none) =>
      let r := runLoop sys rest w1
      (r.1, r.2.1, Event.call s :: r.2.2)

/-- The method `Shutdown`.  The mutex makes calls run one after another, which
is what applying this function repeatedly models.  `none` is a panic: Go
panics when `close` is applied to a channel that is already closed. -/
def Shutdown {W : Type} (sys : Subsystems W) (a : State W) : Option (Outcome W) :=
  if a.shutdown then
    some { agent := a, err := none, trace := [] }
  else if a.shutdownsClosed then
    none
  else
    let r := runLoop sys shutdownSteps a.world
    some { agent := { shutdown := true, shutdownsClosed := true, world := r.1 },
           err := r.2.1,
           trace := Event.closeShutdowns :: r.2.2 }

/-- The shutdown-related fields as `New` leaves them (lines 53-56): the flag is
the zero value and the channel is freshly made. -/
def fresh {W : Type} (w : W) : State W :=
  { shutdown := false, shutdownsClosed := false, world := w }

/-- Calling `Shutdown` `n` times in a row, collecting what all the calls did. -/
def ShutdownTimes {W : Type} (sys : Subsystems W) : Nat → State W → Option (State W × List Event)
  | 0, a => some (a, [])
  | n + 1, a =>
    match Shutdown sys a with
    | none => none
    | some out =>
      match ShutdownTimes sys n out.agent with
      | none => none
      | some (a2, t) => some (a2, out.trace ++ t)

end Agent

namespace Auth

/-! ## `Authorizer.Authorize` (authorizer.go, lines 21-32) -/

/-- The gRPC status codes of `google.golang.org/grpc/codes`, in numeric order
from 0 (`OK`) to 16. -/
inductive Code where
  | OK
  | Canceled
  | Unknown
  | InvalidArgument
  | DeadlineExceeded
  | NotFound
  | AlreadyExists
  | PermissionDenied
  | ResourceExhausted
  | FailedPrecondition
  | Aborted
  | OutOfRange
  | Unimplemented
  | Internal
  | Unavailable
  | DataLoss
  | Unauthenticated
  deriving DecidableEq, Repr

/-- A gRPC status: `status.New(c, msg)` is `Status.mk c msg`. -/
structure Status where
  code : Code
  message : String
  deriving DecidableEq, Repr

/-- The method `(*Status).Err`: `nil` for the code `OK`, otherwise an error
that carries the status. -/
def Status.Err (s : Status) : Option Status :=
  if s.code = Code.OK then none else some s

/-- The struct `Authorizer`; the casbin enforcer is its decision function
`Enforce(subject, object, action)`. -/
structure Authorizer where
  enforcer : String → String → String → Bool

/-- The call `fmt.Sprintf("%s not permitted to %s to %s", subject, action, object)`. -/
def deniedMessage (subject action object : String) : String :=
  subject ++ " not permitted to " ++ action ++ " to " ++ object

/-- The method `Authorize`. -/
def Authorize (a : Authorizer) (subject object action : String) : Option Status :=
  if a.enforcer subject object action then
    none
  else
    let msg := deniedMessage subject action object
    (Status.mk Code.PermissionDenied msg).Err

end Auth

namespace Net

/-! ## `net.SplitHostPort` (Go standard library), used by `Config.RPCAddr` -/

/-- The messages an `AddrError` of `SplitHostPort` can carry: missing port,
too many colons, missing `]`, unexpected `[`, unexpected `]`. -/
inductive AddrError where
  | missingPort
  | tooManyColons
  | missingBracket
  | unexpectedOpen
  | unexpectedClose
  deriving DecidableEq, Repr

/-- Index of the first occurrence of `c`, as `strings.IndexByte`; `none` is -1. -/
def indexByte (s : List Char) (c : Char) : Option Nat :=
  let i := s.indexOf c
  if i < s.length then some i else none

/-- Index of the last occurrence of `c`, as `strings.LastIndexByte`. -/
def lastIndexByte (s : List Char) (c : Char) : Option Nat :=
  match indexByte s.reverse c with
  | none => none
  | some k => some (s.length - 1 - k)

/-- The function `net.SplitHostPort` on the characters of the address.  The
port starts after the last colon; a host in brackets must end right before
that colon; an unbracketed host holds no colon; no further bracket may occur. -/
def splitHostPort (hostport : List Char) : Except AddrError (List Char × List Char) :=
  match lastIndexByte hostport ':' with
  | none => .error .missingPort
  | some i =>
    let bracketed : Except AddrError (List Char × Nat × Nat) :=
      if hostport.head? = some '[' then
        match indexByte hostport ']' with
        | none => .error .missingBracket
        | some e =>
          if e + 1 = hostport.length then .error .missingPort
          else if e + 1 = i then .ok ((hostport.take e).drop 1, 1, e + 1)
          else if hostport.get? (e + 1) = some ':' then .error .tooManyColons
          else .error .missingPort
      else
        let host := hostport.take i
        if (indexByte host ':').isSome then .error .tooManyColons
        else .ok (host, 0, 0)
    match bracketed with
    | .error err => .error err
    | .ok (host, j, k) =>
      if (indexByte (hostport.drop j) '[').isSome then .error .unexpectedOpen
      else if (indexByte (hostport.drop k) ']').isSome then .error .unexpectedClose
      else .ok (host, hostport.drop (i + 1))

/-- The function `net.SplitHostPort` on strings. -/
def SplitHostPort (hostport : String) : Except AddrError (String × String) :=
  match splitHostPort hostport.data with
  | .error err => .error err
  | .ok (h, p) => .ok (String.mk h, String.mk p)

end Net

namespace Agent

/-! ## `Config.RPCAddr` and `New` (agent.go, lines 32-155) -/

/-- Stand-in for `*tls.Config`; only whether it is `nil` matters here. -/
structure TLSConfig where
  serverName : String
  deriving DecidableEq, Repr

/-- The struct `Config`.  `RPCPort` is a Go `int`. -/
structure Config where
  ServerTLSConfig : Option TLSConfig
  PeerTLSConfig : Option TLSConfig
  DataDir : String
  BindAddr : String
  RPCPort : Int
  NodeName : String
  StartJoinAddrs : List String
  ACLModelFile : String
  ACLPolicyFile : String
  deriving DecidableEq, Repr

/-- The verb `%d` of `fmt.Sprintf` applied to an `int`: the decimal digits,
after a minus sign for a negative number. -/
def formatInt (n : Int) : String :=
  toString n

/-- The method `RPCAddr` (lines 44-50): the host of `BindAddr`, a colon, the
port in decimal. -/
def Config.RPCAddr (c : Config) : Except Net.AddrError String :=
  match Net.SplitHostPort c.BindAddr with
  | .error err => .error err
  | .ok (host, _) => .ok (host ++ ":" ++ formatInt c.RPCPort)

/-- The method `(*net.AddrError).Error`: the reason, after "address <addr>: "
unless the address is empty. -/
def addrError (addr : String) (e : Net.AddrError) : GoError :=
  let why :=
    match e with
    | .missingPort => "missing port in address"
    | .tooManyColons => "too many colons in address"
    | .missingBracket => "missing \x27]\x27 in address"
    | .unexpectedOpen => "unexpected \x27[\x27 in address"
    | .unexpectedClose => "unexpected \x27]\x27 in address"
  { kind := ErrKind.Other,
    msg := if addr ≠ "" then "address " ++ addr ++ ": " ++ why else why }

/-- A `grpc.ServerOption`; the one the agent builds is
`grpc.Creds(credentials.NewTLS(cfg))`. -/
inductive ServerOption where
  | Creds (cfg : TLSConfig)
  deriving DecidableEq, Repr

/-- A `grpc.DialOption`; the one the agent builds is
`grpc.WithTransportCredentials(credentials.NewTLS(cfg))`. -/
inductive DialOption where
  | WithTransportCredentials (cfg : TLSConfig)
  deriving DecidableEq, Repr

/-- What the constructors called while an agent is set up answer.  For those
that return an error, `none` is success:
`zap.NewDevelopment()`, `log.NewLog(dataDir, log.Config{})`,
`server.NewGRPCServer(serverConfig, opts...)`, `net.Listen("tcp", addr)`,
`grpc.NewClient(addr, opts...)` and
`discovery.New(replicator, Config{NodeName, BindAddr, Tags{"rpc_addr"}, StartJoinAddrs})`.
`auth.New(model, policy)` returns no error: `authNew` tells whether
`casbin.NewEnforcer` builds an enforcer from the two files (`true`) or
panics (`false`). -/
structure Env where
  zapNewDevelopment : Option GoError
  logNewLog : String → Option GoError
  authNew : String → String → Bool
  newGRPCServer : List ServerOption → Option GoError
  netListen : String → Option GoError
  grpcNewClient : String → List DialOption → Option GoError
  discoveryNew : String → String → String → List String → Option GoError

/-- The four entries of the `setup` slice, in source order. -/
inductive SetupStep where
  | setupLogger
  | setupLog
  | setupServer
  | setupMembership
  deriving DecidableEq, Repr

/-- The agent under construction: its configuration, which of its
collaborators have been created, and the address the goroutine started by
`setupServer` serves on, if it was started. -/
structure Fields where
  config : Config
  log : Bool
  server : Bool
  membership : Bool
  replicator : Bool
  serving : Option String
  deriving DecidableEq, Repr

/-- The method `setupLogger` (lines 72-79).  A setup method returns the agent
and its error, or panics, which is `none`. -/
def setupLogger (env : Env) (a : Fields) : Option (Fields × Option GoError) :=
  match env.zapNewDevelopment with
  | some err => some (a, some err)
  | none => some (a, none)

/-- The method `setupLog` (lines 81-88): `a.log` is assigned whatever
`log.NewLog` returned, and the error is returned as it is. -/
def setupLog (env : Env) (a : Fields) : Option (Fields × Option GoError) :=
  let err := env.logNewLog a.config.DataDir
  some ({ a with log := err.isNone }, err)

/-- The server options of lines 99-103: the credentials when
`ServerTLSConfig` is not nil. -/
def serverOptions (c : Config) : List ServerOption :=
  match c.ServerTLSConfig with
  | some cfg => [ServerOption.Creds cfg]
  | none => []

/-- The dial options of lines 130-133: the transport credentials when
`PeerTLSConfig` is not nil. -/
def dialOptions (c : Config) : List DialOption :=
  match c.PeerTLSConfig with
  | some cfg => [DialOption.WithTransportCredentials cfg]
  | none => []

/-- The method `setupServer` (lines 90-123).  When `net.Listen` fails the
function returns `nil` (line 115). -/
def setupServer (env : Env) (a : Fields) : Option (Fields × Option GoError) :=
  if env.authNew a.config.ACLModelFile a.config.ACLPolicyFile then
    let opts := serverOptions a.config
    let err := env.newGRPCServer opts
    let a1 := { a with server := err.isNone }
    match err with
    | some e => some (a1, some e)
    | none =>
      match a1.config.RPCAddr with
      | .error e => some (a1, some (addrError a1.config.BindAddr e))
      | .ok rpcAddr =>
        match env.netListen rpcAddr with
        | some _ => some (a1, none)
        | none => some ({ a1 with serving := some rpcAddr }, none)
  else
    none

/-- The method `setupMembership` (lines 125-155). -/
def setupMembership (env : Env) (a : Fields) : Option (Fields × Option GoError) :=
  match a.config.RPCAddr with
  | .error e => some (a, some (addrError a.config.BindAddr e))
  | .ok rpcAddr =>
    let opts := dialOptions a.config
    match env.grpcNewClient rpcAddr opts with
    | some e => some (a, some e)
    | none =>
      let a1 := { a with replicator := true }
      match env.discoveryNew a.config.NodeName a.config.BindAddr rpcAddr
          a.config.StartJoinAddrs with
      | some e => some ({ a1 with membership := false }, some e)
      | none => some ({ a1 with membership := true }, none)

/-- The function a setup step stands for. -/
def runSetup (env : Env) : SetupStep → Fields → Option (Fields × Option GoError)
  | .setupLogger => setupLogger env
  | .setupLog => setupLog env
  | .setupServer => setupServer env
  | .setupMembership => setupMembership env

/-- The slice literal of lines 58-63. -/
def setupSteps : List SetupStep :=
  [.setupLogger, .setupLog, .setupServer, .setupMembership]

/-- The loop of lines 64-69, with the steps it ran: the first non-nil error
ends it with `(nil, err)`, and after the last step it returns `(a, nil)`.  A
panic of a step is a panic of the loop. -/
def newLoop (env : Env) :
    List SetupStep → Fields → Option (Option Fields × Option GoError × List SetupStep)
  | [], a => some (some a, none, [])
  | s :: rest, a =>
    match runSetup env s a with
    | none => none
    | some (_, some err) => some (none, some err, [s])
    | some (a1, none) =>
      match newLoop env rest a1 with
      | none => none
      | some r => some (r.1, r.2.1, s :: r.2.2)

/-- The function `New` (lines 52-70): the agent or `nil`, the error, and the
setup steps that ran; `none` when a step panicked. -/
def New (env : Env) (config : Config) :
    Option (Option Fields × Option GoError × List SetupStep) :=
  let a : Fields :=
    { config := config, log := false, server := false, membership := false,
      replicator := false, serving := none }
  newLoop env setupSteps a

end Agent

namespace Server

/-! ## The HTTP handlers (http.go, lines 31-89) -/

/-- The constant `http.StatusOK`. -/
def StatusOK : Nat := 200

/-- The constant `http.StatusBadRequest`. -/
def StatusBadRequest : Nat := 400

/-- The constant `http.StatusNotFound`. -/
def StatusNotFound : Nat := 404

/-- The constant `http.StatusInternalServerError`. -/
def StatusInternalServerError : Nat := 500

/-- The struct `ProduceRequest`; the type `Record` is declared outside
http.go and is a parameter. -/
structure ProduceRequest (R : Type) where
  Record : R

/-- The struct `ProduceResponse`; `Offset` is a `uint64`. -/
structure ProduceResponse where
  Offset : Nat
  deriving DecidableEq, Repr

/-- The struct `ConsumeRequest`. -/
structure ConsumeRequest where
  Offset : Nat
  deriving DecidableEq, Repr

/-- The struct `ConsumeResponse`. -/
structure ConsumeResponse (R : Type) where
  Record : R

/-- The package `encoding/json` at the four types of http.go: decoding a
request body, which can fail, and marshalling a response value. -/
structure JSON (R : Type) where
  decodeProduceRequest : String → Except GoError (ProduceRequest R)
  decodeConsumeRequest : String → Except GoError ConsumeRequest
  marshalProduceResponse : ProduceResponse → Except GoError String
  marshalConsumeResponse : ConsumeResponse R → Except GoError String

/-- The methods of `*Log` the handlers call, on the log state `L`: `Append`
returns the offset or an error, `Read` the record or an error. -/
structure LogOps (L R : Type) where
  Append : L → R → L × Except GoError Nat
  Read : L → Nat → L × Except GoError R

/-- The struct `httpServer`. -/
structure httpServer (L : Type) where
  Log : L

/-- The part of `*http.Request` the handlers read. -/
structure Request where
  Body : String
  deriving DecidableEq, Repr

/-- An `http.ResponseWriter` that records the response: whether the status
line has been written, the status code, and the body.  Writing to it always
succeeds. -/
structure ResponseWriter where
  wroteHeader : Bool
  status : Nat
  body : String
  deriving DecidableEq, Repr

/-- The writer a handler is given at the start of a request. -/
def ResponseWriter.new : ResponseWriter :=
  { wroteHeader := false, status := 0, body := "" }

/-- The method `WriteHeader`: the first status code written is the one sent. -/
def ResponseWriter.WriteHeader (w : ResponseWriter) (code : Nat) : ResponseWriter :=
  if w.wroteHeader then w else { w with wroteHeader := true, status := code }

/-- The method `Write`: an implicit `WriteHeader(http.StatusOK)` if no status
was written yet, then the bytes are appended to the body. -/
def ResponseWriter.Write (w : ResponseWriter) (p : String) : ResponseWriter :=
  let w1 := w.WriteHeader StatusOK
  { w1 with body := w1.body ++ p }

/-- The function `http.Error(w, error, code)`: the status code, then the
message and a newline as the body. -/
def Error (w : ResponseWriter) (error : String) (code : Nat) : ResponseWriter :=
  (w.WriteHeader code).Write (error ++ "\n")

/-- The method `(*json.Encoder).Encode` on a marshalled value: a marshalling
error is returned with nothing written, otherwise the encoding and a newline
are written. -/
def Encode (w : ResponseWriter) (marshalled : Except GoError String) :
    ResponseWriter × Option GoError :=
  match marshalled with
  | .error err => (w, some err)
  | .ok b => (w.Write (b ++ "\n"), none)

/-- What a handler does that is visible outside it.  `authorize` is an
authorization check with its verdict. -/
inductive Event (R : Type) where
  | authorize (subject object action : String) (allowed : Bool)
  | logAppend (record : R)
  | logRead (offset : Nat)
  | bodyClose

/-- Whether an event is a call of `Log.Append` or `Log.Read`. -/
def Event.isLogCall {R : Type} : Event R → Bool
  | .logAppend _ => true
  | .logRead _ => true
  | _ => false

/-- Whether an event is an authorization check, whatever its verdict. -/
def Event.isAuthorize {R : Type} : Event R → Bool
  | .authorize _ _ _ _ => true
  | _ => false

/-- Whether an event is an authorization check that succeeded. -/
def Event.isAuthorized {R : Type} : Event R → Bool
  | .authorize _ _ _ allowed => allowed
  | _ => false

/-- The calls of the log in a trace, in order. -/
def logCalls {R : Type} (t : List (Event R)) : List (Event R) :=
  t.filter Event.isLogCall

/-- The result of handling one request: the response, the server with its log
afterwards, and the calls made, in order. -/
structure Handled (L R : Type) where
  w : ResponseWriter
  s : httpServer L
  trace : List (Event R)

/-- The method `handleProduce` (lines 31-51).  The deferred `r.Body.Close()`
is the last event of every path. -/
def handleProduce {L R : Type} (json : JSON R) (ops : LogOps L R) (s : httpServer L)
    (w : ResponseWriter) (r : Request) : Handled L R :=
  match json.decodeProduceRequest r.Body with
  | .error err =>
    { w := Error w err.msg StatusBadRequest, s := s, trace := [Event.bodyClose] }
  | .ok req =>
    match ops.Append s.Log req.Record with
    | (log1, .error err) =>
      { w := Error w err.msg StatusInternalServerError, s := { Log := log1 },
        trace := [Event.logAppend req.Record, Event.bodyClose] }
    | (log1, .ok off) =>
      let res : ProduceResponse := { Offset := off }
      match Encode w (json.marshalProduceResponse res) with
      | (w1, some err) =>
        { w := Error w1 err.msg StatusInternalServerError, s := { Log := log1 },
          trace := [Event.logAppend req.Record, Event.bodyClose] }
      | (w1, none) =>
        { w := w1, s := { Log := log1 },
          trace := [Event.logAppend req.Record, Event.bodyClose] }

/-- The method `handleConsume` (lines 53-74). -/
def handleConsume {L R : Type} (json : JSON R) (ops : LogOps L R) (s : httpServer L)
    (w : ResponseWriter) (r : Request) : Handled L R :=
  match json.decodeConsumeRequest r.Body with
  | .error err =>
    { w := Error w err.msg StatusBadRequest, s := s, trace := [Event.bodyClose] }
  | .ok req =>
    match ops.Read s.Log req.Offset with
    | (log1, .error err) =>
      { w := Error w err.msg StatusInternalServerError, s := { Log := log1 },
        trace := [Event.logRead req.Offset, Event.bodyClose] }
    | (log1, .ok record) =>
      let res : ConsumeResponse R := { Record := record }
      match Encode w (json.marshalConsumeResponse res) with
      | (w1, some err) =>
        { w := Error w1 err.msg StatusInternalServerError, s := { Log := log1 },
          trace := [Event.logRead req.Offset, Event.bodyClose] }
      | (w1, none) =>
        { w := w1, s := { Log := log1 },
          trace := [Event.logRead req.Offset, Event.bodyClose] }

/-- Every call of the log in the trace comes after an authorization check
that succeeded: what it means that a handler authorizes before it calls the
log. -/
def authorizedBeforeLog {R : Type} : List (Event R) → Bool
  | [] => true
  | e :: rest => if e.isLogCall then false else if e.isAuthorized then true else authorizedBeforeLog rest

end Server

/-! ## Concrete inputs used by the evaluations below -/

namespace Agent

/-- An error value for a failing `membership.Leave`. -/
def leaveFailed : GoError := { kind := ErrKind.Other, msg := "leave failed" }

/-- Collaborators that log every call into the world state, and whose
`membership.Leave` fails. -/
def failingLeave : Subsystems (List Step) where
  membershipLeave := fun w => (w ++ [Step.membershipLeave], some leaveFailed)
  replicatorClose := fun w => (w ++ [Step.replicatorClose], none)
  serverGracefulStop := fun w => w ++ [Step.serverGracefulStop]
  logClose := fun w => (w ++ [Step.logClose], none)

/-- What the first `Shutdown` of a fresh agent returns with `failingLeave`. -/
def failingLeaveOutcome : Outcome (List Step) :=
  { agent := { shutdown := true, shutdownsClosed := true, world := [Step.membershipLeave] },
    err := some leaveFailed,
    trace := [Event.closeShutdowns, Event.call Step.membershipLeave] }

/-- A configuration bound to the IPv6 loopback address. -/
def ipv6Config : Config :=
  { ServerTLSConfig := none, PeerTLSConfig := none, DataDir := "/var/proglog",
    BindAddr := "[::1]:8401", RPCPort := 8400, NodeName := "node-0",
    StartJoinAddrs := [], ACLModelFile := "model.conf", ACLPolicyFile := "policy.csv" }

/-- The TLS configuration of a node of the cluster. -/
def nodeTLS : TLSConfig := { serverName := "127.0.0.1" }

/-- A configuration bound to the IPv4 loopback address, with TLS for the
server and for the connections to peers. -/
def tlsConfig : Config :=
  { ServerTLSConfig := some nodeTLS, PeerTLSConfig := some nodeTLS, DataDir := "/var/proglog",
    BindAddr := "127.0.0.1:8401", RPCPort := 8400, NodeName := "node-0",
    StartJoinAddrs := [], ACLModelFile := "model.conf", ACLPolicyFile := "policy.csv" }

/-- The error of a `net.Listen` on a port that is taken. -/
def addrInUse : GoError :=
  { kind := ErrKind.IOFailure, msg := "listen tcp 127.0.0.1:8400: bind: address already in use" }

/-- The error of `grpc.NewClient` when no dial option sets the transport
security. -/
def noTransportSecurity : GoError :=
  { kind := ErrKind.Other, msg := "grpc: no transport security set" }

/-- An environment in which the port of the RPC address is taken, so that
`net.Listen` fails; the ACL files are readable, `grpc.NewClient` succeeds when
it is given transport credentials and fails without them, and the other
constructors succeed. -/
def listenFails : Env :=
  { zapNewDevelopment := none,
    logNewLog := fun _ => none,
    authNew := fun _ _ => true,
    newGRPCServer := fun _ => none,
    netListen := fun _ => some addrInUse,
    grpcNewClient := fun _ opts => if opts.isEmpty then some noTransportSecurity else none,
    discoveryNew := fun _ _ _ _ => none }

end Agent

namespace Server

/-- The error `encoding/json` reports for a body that is no JSON value. -/
def invalidJSON : GoError :=
  { kind := ErrKind.Other, msg := "invalid character" }

/-- A codec for records that are strings, agreeing with `encoding/json` on the
bodies used below: it decodes the two request bodies written out here and
rejects every other body. -/
def tableJSON : JSON String where
  decodeProduceRequest := fun b =>
    if b = "\x7b\"record\":\"hello\"\x7d" then .ok { Record := "hello" } else .error invalidJSON
  decodeConsumeRequest := fun b =>
    if b = "\x7b\"offset\":5\x7d" then .ok { Offset := 5 } else .error invalidJSON
  marshalProduceResponse := fun res => .ok ("\x7b\"offset\":" ++ toString res.Offset ++ "\x7d")
  marshalConsumeResponse := fun res => .ok ("\x7b\"record\":\"" ++ res.Record ++ "\"\x7d")

/-- The error a log returns for an offset it does not hold. -/
def offsetNotFound : GoError :=
  { kind := ErrKind.NotFound, msg := "offset not found" }

/-- An in-memory log: `Append` adds the record at the end and returns its
index, `Read` returns the record at the index or the not-found error. -/
def memLog : LogOps (List String) String where
  Append := fun l r => (l ++ [r], .ok l.length)
  Read := fun l off =>
    match l.get? off with
    | some r => (l, .ok r)
    | none => (l, .error offsetNotFound)

/-- The error of a log whose disk is full. -/
def diskFull : GoError :=
  { kind := ErrKind.IOFailure, msg := "no space left on device" }

/-- A log whose `Append` always fails. -/
def fullLog : LogOps (List String) String where
  Append := fun l _ => (l, .error diskFull)
  Read := memLog.Read

/-- A produce request with a well-formed body. -/
def produceHello : Request := { Body := "\x7b\"record\":\"hello\"\x7d" }

/-- A consume request for offset 5 with a well-formed body. -/
def consumeFive : Request := { Body := "\x7b\"offset\":5\x7d" }

/-- A request whose body is not JSON. -/
def malformed : Request := { Body := "offset=5" }

end Server

end Proglog

/-! # Theorems -/

namespace Proglog
namespace Agent

theorem runLoop_count_call {W : Type} (sys : Subsystems W) (s : Step) :
    ∀ (steps : List Step) (w : W),
      (runLoop sys steps w).2.2.count (Event.call s) ≤ steps.count s := by
  intro steps
  induction steps with
  | nil => intro w; simp [runLoop]
  | cons t rest ih =>
    intro w
    unfold runLoop
    rcases hstep : runStep sys t w with ⟨w1, _ | e⟩
    · have := ih w1
      by_cases hts : t = s
      · subst hts; simp; omega
      · have hne : Event.call t ≠ Event.call s := fun h => hts (Event.call.inj h)
        simp [List.count_cons, hts, hne]
        simpa using this
    · by_cases hts : t = s
      · subst hts; simp
      · have hne : Event.call t ≠ Event.call s := fun h => hts (Event.call.inj h)
        simp [List.count_cons, hts, hne]

theorem runLoop_count_close {W : Type} (sys : Subsystems W) :
    ∀ (steps : List Step) (w : W),
      (runLoop sys steps w).2.2.count Event.closeShutdowns = 0 := by
  intro steps
  induction steps with
  | nil => intro w; simp [runLoop]
  | cons t rest ih =>
    intro w
    unfold runLoop
    rcases hstep : runStep sys t w with ⟨w1, _ | e⟩
    · simpa [List.count_cons] using ih w1
    · simp [List.count_cons]

theorem shutdownSteps_count (s : Step) : shutdownSteps.count s ≤ 1 := by
  cases s <;> decide

theorem Shutdown_of_shutdown {W : Type} (sys : Subsystems W) (a : State W)
    (h : a.shutdown = true) :
    Shutdown sys a = some { agent := a, err := none, trace := [] } := by
  simp [Shutdown, h]

theorem Shutdown_sets_flag {W : Type} (sys : Subsystems W) (a : State W) (out : Outcome W)
    (h : Shutdown sys a = some out) : out.agent.shutdown = true := by
  unfold Shutdown at h
  by_cases h1 : a.shutdown = true
  · simp [h1] at h; subst h; exact h1
  · by_cases h2 : a.shutdownsClosed = true
    · simp [h1, h2] at h
    · simp [h1, h2] at h; subst h; rfl

theorem ShutdownTimes_of_shutdown {W : Type} (sys : Subsystems W) (a : State W)
    (h : a.shutdown = true) : ∀ n, ShutdownTimes sys n a = some (a, []) := by
  intro n
  induction n with
  | zero => rfl
  | succ n ih => simp [ShutdownTimes, Shutdown_of_shutdown sys a h, ih]

/-- C1 as stated fails: when `membership.Leave` returns an error, the first
call of `Shutdown` returns that error after this one step, and
`replicator.Close`, `server.GracefulStop` and `log.Close` are not invoked. -/
theorem Shutdown_error_skips_later_steps :
    Shutdown failingLeave (fresh []) =
        some { agent := { shutdown := true, shutdownsClosed := true,
                          world := [Step.membershipLeave] },
               err := some leaveFailed,
               trace := [Event.closeShutdowns, Event.call Step.membershipLeave] }
    ∧ ¬ (∀ out, Shutdown failingLeave (fresh []) = some out →
          ∀ s : Step, Event.call s ∈ out.trace) := by
  refine ⟨rfl, ?_⟩
  intro h
  have := h _ rfl Step.logClose
  revert this
  decide

/-- C1 amended: a first call of `Shutdown` closes the `shutdowns` channel and
invokes `membership.Leave`, `replicator.Close`, `server.GracefulStop`,
`log.Close` in this order up to and including the first step that returns an
error; it returns that error at once and invokes no later step.  When no step
fails, all four are invoked and the result is nil. -/
theorem Shutdown_runs_steps_until_first_error {W : Type} (sys : Subsystems W) (a : State W)
    (hflag : a.shutdown = false) (hchan : a.shutdownsClosed = false) :
    ∃ out, Shutdown sys a = some out ∧
      (∀ e, (sys.membershipLeave a.world).2 = some e →
        out.err = some e ∧
        out.trace = [Event.closeShutdowns, Event.call Step.membershipLeave]) ∧
      ((sys.membershipLeave a.world).2 = none →
        ∀ e, (sys.replicatorClose (sys.membershipLeave a.world).1).2 = some e →
          out.err = some e ∧
          out.trace = [Event.closeShutdowns, Event.call Step.membershipLeave,
                       Event.call Step.replicatorClose]) ∧
      ((sys.membershipLeave a.world).2 = none →
        (sys.replicatorClose (sys.membershipLeave a.world).1).2 = none →
          out.err = (sys.logClose (sys.serverGracefulStop
                      (sys.replicatorClose (sys.membershipLeave a.world).1).1)).2 ∧
          out.trace = [Event.closeShutdowns, Event.call Step.membershipLeave,
                       Event.call Step.replicatorClose, Event.call Step.serverGracefulStop,
                       Event.call Step.logClose]) := by
  refine ⟨_, by simp [Shutdown, hflag, hchan]; rfl, ?_, ?_, ?_⟩
  · intro e he
    rcases hl : sys.membershipLeave a.world with ⟨w1, r1⟩
    rw [hl] at he
    simp at he
    simp [shutdownSteps, runLoop, runStep, hl, he]
  · intro h1 e he
    rcases hl : sys.membershipLeave a.world with ⟨w1, r1⟩
    rw [hl] at h1 he
    simp at h1 he
    rcases hr : sys.replicatorClose w1 with ⟨w2, r2⟩
    rw [hr] at he
    simp at he
    simp [shutdownSteps, runLoop, runStep, hl, h1, hr, he]
  · intro h1 h2
    rcases hl : sys.membershipLeave a.world with ⟨w1, r1⟩
    rw [hl] at h1 h2
    simp at h1 h2
    rcases hr : sys.replicatorClose w1 with ⟨w2, r2⟩
    rw [hr] at h2
    simp at h2
    rcases hc : sys.logClose (sys.serverGracefulStop w2) with ⟨w4, r4⟩
    cases r4 <;> simp [shutdownSteps, runLoop, runStep, hl, h1, hr, h2, hc]

theorem Shutdown_trace_counts {W : Type} (sys : Subsystems W) (a : State W) (out : Outcome W)
    (h : Shutdown sys a = some out) :
    (∀ s : Step, out.trace.count (Event.call s) ≤ 1) ∧
    (a.shutdown = false → out.trace.count Event.closeShutdowns = 1) ∧
    (a.shutdown = true → out.trace = []) := by
  unfold Shutdown at h
  by_cases h1 : a.shutdown = true
  · simp [h1] at h; subst h; simp [h1]
  · by_cases h2 : a.shutdownsClosed = true
    · simp [h1, h2] at h
    · simp [h1, h2] at h
      subst h
      refine ⟨fun s => ?_, fun _ => ?_, fun h => absurd h h1⟩
      · have := runLoop_count_call sys s shutdownSteps a.world
        have := shutdownSteps_count s
        simp [List.count_cons]
        omega
      · have := runLoop_count_close sys shutdownSteps a.world
        simp [List.count_cons, this]

/-- C2: once a call of `Shutdown` has returned, with or without an error,
every later call returns nil, invokes no step and leaves the agent as it is;
over any number of calls in a row each step is invoked at most once, and the
`shutdowns` channel is closed exactly once when the agent had not been shut
down before (and not again when it had). -/
theorem Shutdown_idempotent {W : Type} (sys : Subsystems W) (a : State W) (out : Outcome W)
    (h : Shutdown sys a = some out) :
    Shutdown sys out.agent = some { agent := out.agent, err := none, trace := [] } ∧
    ∀ n : Nat, ∃ t : List Event,
      ShutdownTimes sys (n + 1) a = some (out.agent, t) ∧
      (∀ s : Step, t.count (Event.call s) ≤ 1) ∧
      (a.shutdown = false → t.count Event.closeShutdowns = 1) ∧
      (a.shutdown = true → t = []) := by
  have hflag := Shutdown_sets_flag sys a out h
  refine ⟨Shutdown_of_shutdown sys out.agent hflag, fun n => ⟨out.trace, ?_, ?_⟩⟩
  · simp [ShutdownTimes, h, ShutdownTimes_of_shutdown sys out.agent hflag n]
  · exact Shutdown_trace_counts sys a out h

/-- Witness of C1 amended: a fresh agent whose `membership.Leave` fails. -/
theorem Shutdown_runs_steps_until_first_error_witness :
    (fresh ([] : List Step)).shutdown = false ∧
    (fresh ([] : List Step)).shutdownsClosed = false ∧
    ∃ out, Shutdown failingLeave (fresh []) = some out ∧
      out.err = some leaveFailed ∧
      out.trace = [Event.closeShutdowns, Event.call Step.membershipLeave] :=
  ⟨rfl, rfl,
   (Shutdown_runs_steps_until_first_error failingLeave (fresh []) rfl rfl).imp
     fun _ h => ⟨h.1, h.2.1 leaveFailed rfl⟩⟩

/-- Witness of C2: three calls in a row on a fresh agent whose
`membership.Leave` fails. -/
theorem Shutdown_idempotent_witness :
    Shutdown failingLeave (fresh []) = some failingLeaveOutcome ∧
    Shutdown failingLeave failingLeaveOutcome.agent
      = some { agent := failingLeaveOutcome.agent, err := none, trace := [] } ∧
    ∃ t, ShutdownTimes failingLeave 3 (fresh []) = some (failingLeaveOutcome.agent, t) ∧
      t.count (Event.call Step.membershipLeave) ≤ 1 ∧
      t.count Event.closeShutdowns = 1 :=
  ⟨rfl,
   (Shutdown_idempotent failingLeave (fresh []) failingLeaveOutcome rfl).1,
   ((Shutdown_idempotent failingLeave (fresh []) failingLeaveOutcome rfl).2 2).imp
     fun _ h => ⟨h.1, h.2.1 Step.membershipLeave, h.2.2.1 rfl⟩⟩

end Agent

namespace Auth

/-- C3: `Authorize` returns nil exactly when the enforcer permits
(subject, object, action); otherwise it returns an error whose status code is
`PermissionDenied` and whose message is
"<subject> not permitted to <action> to <object>". -/
theorem Authorize_follows_enforcer (a : Authorizer) (subject object action : String) :
    (Authorize a subject object action = none ↔ a.enforcer subject object action = true) ∧
    Authorize a subject object action =
      (if a.enforcer subject object action then none
       else some { code := Code.PermissionDenied,
                   message := subject ++ " not permitted to " ++ action ++ " to " ++ object }) := by
  cases h : a.enforcer subject object action <;>
    simp [Authorize, h, Status.Err, deniedMessage]

end Auth

namespace Agent

/-- The method `RPCAddr` fails exactly when `net.SplitHostPort` rejects the
bind address, and with the same error. -/
theorem RPCAddr_error_iff (c : Config) (e : Net.AddrError) :
    c.RPCAddr = .error e ↔ Net.SplitHostPort c.BindAddr = .error e := by
  unfold Config.RPCAddr
  cases Net.SplitHostPort c.BindAddr with
  | error e1 => simp
  | ok hp => simp

/-- C8, evaluated at a bracketed IPv6 bind address: `net.SplitHostPort`
accepts "[::1]:8401" with host "::1", `RPCAddr` succeeds with "::1:8400", and
`net.SplitHostPort` rejects that result for its too many colons. -/
theorem RPCAddr_ipv6_result_not_an_address :
    Net.SplitHostPort ipv6Config.BindAddr = .ok ("::1", "8401") ∧
    ipv6Config.RPCAddr = .ok "::1:8400" ∧
    Net.SplitHostPort "::1:8400" = .error Net.AddrError.tooManyColons := by
  exact ⟨rfl, rfl, rfl⟩

/-- C9, evaluated where `net.Listen` fails on the RPC address of a
configuration with TLS set for the server and the peers: `setupServer` returns
nil instead of the error, so `New` goes on to `setupMembership` and returns an
agent without an error, although no server goroutine was started. -/
theorem New_ignores_listen_failure :
    tlsConfig.RPCAddr = .ok "127.0.0.1:8400" ∧
    listenFails.netListen "127.0.0.1:8400" = some addrInUse ∧
    dialOptions tlsConfig = [DialOption.WithTransportCredentials nodeTLS] ∧
    setupServer listenFails
      { config := tlsConfig, log := true, server := false, membership := false,
        replicator := false, serving := none }
      = some ({ config := tlsConfig, log := true, server := true, membership := false,
                replicator := false, serving := none }, none) ∧
    New listenFails tlsConfig =
      some (some { config := tlsConfig, log := true, server := true, membership := true,
                   replicator := true, serving := none },
            none,
            [SetupStep.setupLogger, SetupStep.setupLog, SetupStep.setupServer,
             SetupStep.setupMembership]) := by
  exact ⟨rfl, rfl, rfl, rfl, rfl⟩

end Agent

namespace Server

theorem Error_new (msg : String) (code : Nat) :
    Error ResponseWriter.new msg code =
      { wroteHeader := true, status := code, body := msg ++ "\n" } := by
  simp [Error, ResponseWriter.new, ResponseWriter.Write, ResponseWriter.WriteHeader]

theorem Write_new (p : String) :
    ResponseWriter.new.Write p = { wroteHeader := true, status := StatusOK, body := p } := by
  simp [ResponseWriter.new, ResponseWriter.Write, ResponseWriter.WriteHeader]

/-- C4 as stated fails: an empty in-memory log answers `Read(5)` with the
not-found error, and `handleConsume` responds with status 500, not 404. -/
theorem handleConsume_not_found_is_500 :
    tableJSON.decodeConsumeRequest consumeFive.Body = .ok { Offset := 5 } ∧
    memLog.Read [] 5 = ([], .error offsetNotFound) ∧
    offsetNotFound.kind = ErrKind.NotFound ∧
    (handleConsume tableJSON memLog { Log := [] } ResponseWriter.new consumeFive).w.status = 500 ∧
    (handleConsume tableJSON memLog { Log := [] } ResponseWriter.new consumeFive).w.status
      ≠ StatusNotFound := by
  refine ⟨rfl, rfl, rfl, rfl, ?_⟩
  decide

/-- C4 amended: for every well-formed consume request for which `Log.Read`
fails, whatever the kind of the error, not-found included, `handleConsume`
responds with status 500 and the error text as the body. -/
theorem handleConsume_read_error_is_500 {L R : Type} (json : JSON R) (ops : LogOps L R)
    (s : httpServer L) (r : Request) (req : ConsumeRequest) (err : GoError)
    (hdec : json.decodeConsumeRequest r.Body = .ok req)
    (hread : (ops.Read s.Log req.Offset).2 = .error err) :
    (handleConsume json ops s ResponseWriter.new r).w.status = StatusInternalServerError ∧
    (handleConsume json ops s ResponseWriter.new r).w.body = err.msg ++ "\n" := by
  rcases hr : ops.Read s.Log req.Offset with ⟨l1, res⟩
  rw [hr] at hread
  simp at hread
  subst hread
  simp [handleConsume, hdec, hr, Error_new]

/-- Witness of C4 amended: offset 5 of the empty in-memory log. -/
theorem handleConsume_read_error_is_500_witness :
    tableJSON.decodeConsumeRequest consumeFive.Body = .ok { Offset := 5 } ∧
    (memLog.Read [] 5).2 = .error offsetNotFound ∧
    (handleConsume tableJSON memLog { Log := [] } ResponseWriter.new consumeFive).w.status
      = StatusInternalServerError ∧
    (handleConsume tableJSON memLog { Log := [] } ResponseWriter.new consumeFive).w.body
      = "offset not found\n" :=
  ⟨rfl, rfl,
   handleConsume_read_error_is_500 tableJSON memLog { Log := [] } consumeFive { Offset := 5 }
     offsetNotFound rfl rfl⟩

theorem handleProduce_trace {L R : Type} (json : JSON R) (ops : LogOps L R)
    (s : httpServer L) (w : ResponseWriter) (r : Request) :
    (handleProduce json ops s w r).trace =
      match json.decodeProduceRequest r.Body with
      | .error _ => [Event.bodyClose]
      | .ok req => [Event.logAppend req.Record, Event.bodyClose] := by
  unfold handleProduce
  cases json.decodeProduceRequest r.Body with
  | error e => rfl
  | ok req =>
    dsimp only
    rcases ops.Append s.Log req.Record with ⟨l1, _ | off⟩
    · rfl
    · dsimp only
      rcases Encode w (json.marshalProduceResponse { Offset := off }) with ⟨w1, _ | e⟩ <;> rfl

theorem handleConsume_trace {L R : Type} (json : JSON R) (ops : LogOps L R)
    (s : httpServer L) (w : ResponseWriter) (r : Request) :
    (handleConsume json ops s w r).trace =
      match json.decodeConsumeRequest r.Body with
      | .error _ => [Event.bodyClose]
      | .ok req => [Event.logRead req.Offset, Event.bodyClose] := by
  unfold handleConsume
  cases json.decodeConsumeRequest r.Body with
  | error e => rfl
  | ok req =>
    dsimp only
    rcases ops.Read s.Log req.Offset with ⟨l1, _ | rec⟩
    · rfl
    · dsimp only
      rcases Encode w (json.marshalConsumeResponse { Record := rec }) with ⟨w1, _ | e⟩ <;> rfl

/-- C5 as stated fails: a well-formed produce request and a well-formed
consume request reach `Log.Append` and `Log.Read` although no authorization
check was made. -/
theorem handlers_call_log_unauthorized :
    (handleProduce tableJSON memLog { Log := [] } ResponseWriter.new produceHello).trace
      = [Event.logAppend "hello", Event.bodyClose] ∧
    authorizedBeforeLog
      (handleProduce tableJSON memLog { Log := [] } ResponseWriter.new produceHello).trace
      = false ∧
    (handleConsume tableJSON memLog { Log := [] } ResponseWriter.new consumeFive).trace
      = [Event.logRead 5, Event.bodyClose] ∧
    authorizedBeforeLog
      (handleConsume tableJSON memLog { Log := [] } ResponseWriter.new consumeFive).trace
      = false := by
  exact ⟨rfl, rfl, rfl, rfl⟩

/-- C5 amended: `handleProduce` and `handleConsume` make no authorization
check in any execution, and they invoke `Log.Append` (respectively `Log.Read`)
for every request whose body decodes. -/
theorem handlers_make_no_authorization_check {L R : Type} (json : JSON R) (ops : LogOps L R)
    (s : httpServer L) (w : ResponseWriter) (r : Request) :
    (handleProduce json ops s w r).trace.any Event.isAuthorize = false ∧
    (handleConsume json ops s w r).trace.any Event.isAuthorize = false ∧
    (∀ req, json.decodeProduceRequest r.Body = .ok req →
      logCalls (handleProduce json ops s w r).trace = [Event.logAppend req.Record]) ∧
    (∀ req, json.decodeConsumeRequest r.Body = .ok req →
      logCalls (handleConsume json ops s w r).trace = [Event.logRead req.Offset]) := by
  rw [handleProduce_trace, handleConsume_trace]
  refine ⟨?_, ?_, ?_, ?_⟩
  · cases json.decodeProduceRequest r.Body <;> rfl
  · cases json.decodeConsumeRequest r.Body <;> rfl
  · intro req h
    rw [h]
    rfl
  · intro req h
    rw [h]
    rfl

/-- Witness of C5 amended: the well-formed produce request reaches
`Log.Append` and the trace holds no authorization check. -/
theorem handlers_make_no_authorization_check_witness :
    tableJSON.decodeProduceRequest produceHello.Body = .ok { Record := "hello" } ∧
    logCalls (handleProduce tableJSON memLog { Log := [] } ResponseWriter.new produceHello).trace
      = [Event.logAppend "hello"] ∧
    (handleProduce tableJSON memLog { Log := [] } ResponseWriter.new produceHello).trace.any
      Event.isAuthorize = false :=
  ⟨rfl,
   (handlers_make_no_authorization_check tableJSON memLog { Log := [] } ResponseWriter.new
      produceHello).2.2.1 _ rfl,
   (handlers_make_no_authorization_check tableJSON memLog { Log := [] } ResponseWriter.new
      produceHello).1⟩

/-- C6: a body that decodes to a `ProduceRequest` with record `r` makes
`handleProduce` call `Log.Append(r)` exactly once, and when that returns the
offset `o` without error the response has status 200 and its body is what
`Encode` writes for `ProduceResponse{Offset: o}`, the JSON encoding and a
newline; likewise `handleConsume` calls `Log.Read(o)` exactly once and
answers with the encoding of `ConsumeResponse{Record: r}`. -/
theorem handlers_one_log_call_result_encoded {L R : Type} (json : JSON R) (ops : LogOps L R)
    (s : httpServer L) (r : Request) :
    (∀ req, json.decodeProduceRequest r.Body = .ok req →
      logCalls (handleProduce json ops s ResponseWriter.new r).trace
        = [Event.logAppend req.Record] ∧
      (handleProduce json ops s ResponseWriter.new r).s.Log
        = (ops.Append s.Log req.Record).1 ∧
      ∀ o enc, (ops.Append s.Log req.Record).2 = .ok o →
        json.marshalProduceResponse { Offset := o } = .ok enc →
        (handleProduce json ops s ResponseWriter.new r).w.status = StatusOK ∧
        (handleProduce json ops s ResponseWriter.new r).w.body = enc ++ "\n") ∧
    (∀ req, json.decodeConsumeRequest r.Body = .ok req →
      logCalls (handleConsume json ops s ResponseWriter.new r).trace
        = [Event.logRead req.Offset] ∧
      (handleConsume json ops s ResponseWriter.new r).s.Log
        = (ops.Read s.Log req.Offset).1 ∧
      ∀ rec enc, (ops.Read s.Log req.Offset).2 = .ok rec →
        json.marshalConsumeResponse { Record := rec } = .ok enc →
        (handleConsume json ops s ResponseWriter.new r).w.status = StatusOK ∧
        (handleConsume json ops s ResponseWriter.new r).w.body = enc ++ "\n") := by
  refine ⟨?_, ?_⟩
  · intro req hdec
    refine ⟨?_, ?_, ?_⟩
    · rw [handleProduce_trace, hdec]; rfl
    · unfold handleProduce
      simp only [hdec]
      rcases ops.Append s.Log req.Record with ⟨l1, _ | off⟩
      · rfl
      · dsimp only
        rcases Encode ResponseWriter.new (json.marshalProduceResponse { Offset := off })
          with ⟨w1, _ | e⟩ <;> rfl
    · intro o enc ha hm
      rcases hap : ops.Append s.Log req.Record with ⟨l1, res⟩
      rw [hap] at ha
      simp at ha
      subst ha
      simp [handleProduce, hdec, hap, hm, Encode, Write_new]
  · intro req hdec
    refine ⟨?_, ?_, ?_⟩
    · rw [handleConsume_trace, hdec]; rfl
    · unfold handleConsume
      simp only [hdec]
      rcases ops.Read s.Log req.Offset with ⟨l1, _ | rec⟩
      · rfl
      · dsimp only
        rcases Encode ResponseWriter.new (json.marshalConsumeResponse { Record := rec })
          with ⟨w1, _ | e⟩ <;> rfl
    · intro rec enc ha hm
      rcases hap : ops.Read s.Log req.Offset with ⟨l1, res⟩
      rw [hap] at ha
      simp at ha
      subst ha
      simp [handleConsume, hdec, hap, hm, Encode, Write_new]

/-- Witness of C6: a produce request on the empty in-memory log is answered
with offset 0, and a consume request for offset 5 on a log of six records with
the sixth record. -/
theorem handlers_one_log_call_result_encoded_witness :
    tableJSON.decodeProduceRequest produceHello.Body = .ok { Record := "hello" } ∧
    (memLog.Append [] "hello").2 = .ok 0 ∧
    ((handleProduce tableJSON memLog { Log := [] } ResponseWriter.new produceHello).w.status
        = StatusOK ∧
      (handleProduce tableJSON memLog { Log := [] } ResponseWriter.new produceHello).w.body
        = "\x7b\"offset\":0\x7d" ++ "\n") ∧
    tableJSON.decodeConsumeRequest consumeFive.Body = .ok { Offset := 5 } ∧
    (memLog.Read ["a", "b", "c", "d", "e", "f"] 5).2 = .ok "f" ∧
    ((handleConsume tableJSON memLog { Log := ["a", "b", "c", "d", "e", "f"] }
        ResponseWriter.new consumeFive).w.status = StatusOK ∧
      (handleConsume tableJSON memLog { Log := ["a", "b", "c", "d", "e", "f"] }
        ResponseWriter.new consumeFive).w.body = "\x7b\"record\":\"f\"\x7d" ++ "\n") :=
  ⟨rfl, rfl,
   ((handlers_one_log_call_result_encoded tableJSON memLog { Log := [] } produceHello).1
      { Record := "hello" } rfl).2.2 0 _ rfl rfl,
   rfl, rfl,
   ((handlers_one_log_call_result_encoded tableJSON memLog
      { Log := ["a", "b", "c", "d", "e", "f"] } consumeFive).2
      { Offset := 5 } rfl).2.2 "f" _ rfl rfl⟩

/-- C7: for every well-formed produce request for which `Log.Append` returns
an error, `handleProduce` responds with status 500; the response is what
`http.Error` writes, the error text and a newline, so no `ProduceResponse`
and no offset is written. -/
theorem handleProduce_append_error_is_500 {L R : Type} (json : JSON R) (ops : LogOps L R)
    (s : httpServer L) (r : Request) (req : ProduceRequest R) (err : GoError)
    (hdec : json.decodeProduceRequest r.Body = .ok req)
    (happ : (ops.Append s.Log req.Record).2 = .error err) :
    (handleProduce json ops s ResponseWriter.new r).w.status = StatusInternalServerError ∧
    (handleProduce json ops s ResponseWriter.new r).w.body = err.msg ++ "\n" ∧
    (handleProduce json ops s ResponseWriter.new r).w
      = Error ResponseWriter.new err.msg StatusInternalServerError := by
  rcases ha : ops.Append s.Log req.Record with ⟨l1, res⟩
  rw [ha] at happ
  simp at happ
  subst happ
  simp [handleProduce, hdec, ha, Error_new]

/-- Witness of C7: a log whose disk is full. -/
theorem handleProduce_append_error_is_500_witness :
    tableJSON.decodeProduceRequest produceHello.Body = .ok { Record := "hello" } ∧
    (fullLog.Append [] "hello").2 = .error diskFull ∧
    (handleProduce tableJSON fullLog { Log := [] } ResponseWriter.new produceHello).w.status
      = StatusInternalServerError ∧
    (handleProduce tableJSON fullLog { Log := [] } ResponseWriter.new produceHello).w.body
      = "no space left on device\n" ∧
    (handleProduce tableJSON fullLog { Log := [] } ResponseWriter.new produceHello).w
      = Error ResponseWriter.new "no space left on device" StatusInternalServerError :=
  ⟨rfl, rfl,
   handleProduce_append_error_is_500 tableJSON fullLog { Log := [] } produceHello
     { Record := "hello" } diskFull rfl rfl⟩

/-- C10: for every request whose body fails to decode into the handler's
request type, `handleProduce` (respectively `handleConsume`) responds with
status 400, makes no call of the log, and leaves the server's log as it was. -/
theorem malformed_request_never_reaches_log {L R : Type} (json : JSON R) (ops : LogOps L R)
    (s : httpServer L) (r : Request) :
    (∀ err, json.decodeProduceRequest r.Body = .error err →
      (handleProduce json ops s ResponseWriter.new r).w.status = StatusBadRequest ∧
      logCalls (handleProduce json ops s ResponseWriter.new r).trace = [] ∧
      (handleProduce json ops s ResponseWriter.new r).s = s) ∧
    (∀ err, json.decodeConsumeRequest r.Body = .error err →
      (handleConsume json ops s ResponseWriter.new r).w.status = StatusBadRequest ∧
      logCalls (handleConsume json ops s ResponseWriter.new r).trace = [] ∧
      (handleConsume json ops s ResponseWriter.new r).s = s) := by
  refine ⟨?_, ?_⟩
  · intro err h
    simp [handleProduce, h, Error_new, logCalls, Event.isLogCall]
  · intro err h
    simp [handleConsume, h, Error_new, logCalls, Event.isLogCall]

/-- Witness of C10: a body that is not JSON, against a log of one record. -/
theorem malformed_request_never_reaches_log_witness :
    tableJSON.decodeProduceRequest malformed.Body = .error invalidJSON ∧
    ((handleProduce tableJSON memLog { Log := ["a"] } ResponseWriter.new malformed).w.status
        = StatusBadRequest ∧
      logCalls (handleProduce tableJSON memLog { Log := ["a"] } ResponseWriter.new
        malformed).trace = [] ∧
      (handleProduce tableJSON memLog { Log := ["a"] } ResponseWriter.new malformed).s
        = { Log := ["a"] }) ∧
    tableJSON.decodeConsumeRequest malformed.Body = .error invalidJSON ∧
    ((handleConsume tableJSON memLog { Log := ["a"] } ResponseWriter.new malformed).w.status
        = StatusBadRequest ∧
      logCalls (handleConsume tableJSON memLog { Log := ["a"] } ResponseWriter.new
        malformed).trace = [] ∧
      (handleConsume tableJSON memLog { Log := ["a"] } ResponseWriter.new malformed).s
        = { Log := ["a"] }) :=
  ⟨rfl,
   (malformed_request_never_reaches_log tableJSON memLog { Log := ["a"] } malformed).1 _ rfl,
   rfl,
   (malformed_request_never_reaches_log tableJSON memLog { Log := ["a"] } malformed).2 _ rfl⟩

end Server

end Proglog
